import Mathlib

/-!
Shallow embedding of the cooperative scheduler and lane engine of this
repository: the lane model (`getNextLanes`, `markRootUpdated`,
`markStarvedLanesAsExpired`, `markRootFinished`, `markRootEntangled`, ...)
from the reconciler sources and the task scheduler
(`unstable_scheduleCallback`, `workLoop`, `unstable_runWithPriority`,
`unstable_cancelCallback`) from `packages/17.0.0/scheduler/src/Scheduler.js`.

Modelling conventions:
- JavaScript 31-bit lane bitmasks become `Nat` (the source keeps them below
  `2 ^ 31`); `x & ~y` becomes `x &&& lnot31 y`, where `lnot31` complements
  the low 31 bits.
- Timestamps are `Int`, with `NoTimestamp = -1`.
- The per-lane tables `eventTimes`, `expirationTimes` and `entanglements`
  (31-slot arrays in the source) are functions from the lane bit index.
- The source's `while (lanes > 0)` loops pick the highest set bit, run the
  body there, clear the bit and repeat; `foldBits` runs the body once per
  set bit of the mask, from bit 30 down to bit 0, which is the same thing.
-/

namespace ReactDebug

/-! Lane priority constants (`LanePriority` in the reconciler source). -/

abbrev SyncLanePriority : Nat := 15
abbrev SyncBatchedLanePriority : Nat := 14
abbrev InputDiscreteHydrationLanePriority : Nat := 13
abbrev InputDiscreteLanePriority : Nat := 12
abbrev InputContinuousHydrationLanePriority : Nat := 11
abbrev InputContinuousLanePriority : Nat := 10
abbrev DefaultHydrationLanePriority : Nat := 9
abbrev DefaultLanePriority : Nat := 8
abbrev TransitionHydrationPriority : Nat := 7
abbrev TransitionPriority : Nat := 6
abbrev RetryLanePriority : Nat := 5
abbrev SelectiveHydrationLanePriority : Nat := 4
abbrev IdleHydrationLanePriority : Nat := 3
abbrev IdleLanePriority : Nat := 2
abbrev OffscreenLanePriority : Nat := 1
abbrev NoLanePriority : Nat := 0

/-! Lane bitmask constants (31 lanes). -/

abbrev TotalLanes : Nat := 31
abbrev NoLanes : Nat := 0
abbrev NoLane : Nat := 0
abbrev SyncLane : Nat := 0b1
abbrev SyncBatchedLane : Nat := 0b10
abbrev InputDiscreteHydrationLane : Nat := 0b100
abbrev InputDiscreteLanes : Nat := 0b11000
abbrev InputContinuousHydrationLane : Nat := 0b100000
abbrev InputContinuousLanes : Nat := 0b11000000
abbrev DefaultHydrationLane : Nat := 0b100000000
abbrev DefaultLanes : Nat := 0b111000000000
abbrev TransitionHydrationLane : Nat := 0b1000000000000
abbrev TransitionLanes : Nat := 0b1111111110000000000000
abbrev RetryLanes : Nat := 0b11110000000000000000000000
abbrev SelectiveHydrationLane : Nat := 0b100000000000000000000000000
abbrev NonIdleLanes : Nat := 0b111111111111111111111111111
abbrev IdleHydrationLane : Nat := 0b1000000000000000000000000000
abbrev IdleLanes : Nat := 0b110000000000000000000000000000
abbrev OffscreenLane : Nat := 0b1000000000000000000000000000000

abbrev NoTimestamp : Int := -1

/-! Bit-trick primitives. -/

/-- Complement of the low 31 bits; models the effect of the JS 32-bit `~x`
when the result is intersected with a lane mask below `2 ^ 31`. -/
def lnot31 (lanes : Nat) : Nat := lanes ^^^ (2 ^ 31 - 1)

/-- Source: `getHighestPriorityLane(lanes) = lanes & -lanes` (two's complement
over 32 bits), the lowest set bit. -/
def getHighestPriorityLane (lanes : Nat) : Nat := lanes &&& (2 ^ 32 - lanes)

/-- Downward search for the highest set bit index at or below `i`; helper for
`pickArbitraryLaneIndex`, written structurally so it evaluates by kernel
reduction. -/
def pickSearch (lanes : Nat) : Nat → Nat
  | 0 => 0
  | i + 1 => if lanes.testBit (i + 1) then i + 1 else pickSearch lanes i

/-- Source: `pickArbitraryLaneIndex(lanes) = 31 - clz32(lanes)`, the index of
the highest set bit of the 31-bit mask. For `lanes = 0` the source yields `-1`
and every caller guards with `lanes > 0`; here `0` is returned in that case. -/
def pickArbitraryLaneIndex (lanes : Nat) : Nat := pickSearch lanes 30

/-- Source: `laneToIndex(lane) = pickArbitraryLaneIndex(lane)`. -/
def laneToIndex (lane : Nat) : Nat := pickArbitraryLaneIndex lane

/-- Source: most significant set bit as a lane; `NoLanes` when the input is
empty (the `index < 0` guard). -/
def getLowestPriorityLane (lanes : Nat) : Nat :=
  if lanes = 0 then NoLanes else 1 <<< pickArbitraryLaneIndex lanes

/-- Source: `(getLowestPriorityLane(lanes) << 1) - 1`, the mask of every bit
at or below the highest set bit, i.e. all lanes of equal or higher priority. -/
def getEqualOrHigherPriorityLanes (lanes : Nat) : Nat :=
  (getLowestPriorityLane lanes <<< 1) - 1

/-- Source: `isSubsetOfLanes(set, subset) = (set & subset) === subset`. -/
abbrev isSubsetOfLanes (s subset : Nat) : Prop := s &&& subset = subset

/-- Runs the body of a `while (lanes > 0)` loop once per set bit of the
31-bit mask, from bit 30 down to bit 0, mirroring the source loops driven by
`pickArbitraryLaneIndex` and `lanes &= ~lane`. -/
def foldBits {α : Type} (mask : Nat) (f : Nat → α → α) (init : α) : α :=
  (List.range 31).foldr (fun i acc => if mask.testBit i then f i acc else acc) init

/-! The root's lane registers (`FiberRoot` fields used by the lane engine). -/

structure FiberRoot where
  pendingLanes : Nat
  suspendedLanes : Nat
  pingedLanes : Nat
  expiredLanes : Nat
  entangledLanes : Nat
  mutableReadLanes : Nat
  eventTimes : Nat → Int
  expirationTimes : Nat → Int
  entanglements : Nat → Nat

/-- Fresh root: no pending work, `eventTimes` all `0`, `expirationTimes` all
`NoTimestamp`, `entanglements` all `NoLanes` (the `createLaneMap` initial
values in the source). -/
def emptyRoot : FiberRoot where
  pendingLanes := NoLanes
  suspendedLanes := NoLanes
  pingedLanes := NoLanes
  expiredLanes := NoLanes
  entangledLanes := NoLanes
  mutableReadLanes := NoLanes
  eventTimes := fun _ => 0
  expirationTimes := fun _ => NoTimestamp
  entanglements := fun _ => NoLanes

/-- Source `getHighestPriorityLanes`: scans the lane groups from highest to
lowest priority and returns the first non-empty intersection together with the
lane priority it records in the `return_highestLanePriority` register (the
second component). -/
def getHighestPriorityLanes (lanes : Nat) : Nat × Nat :=
  if SyncLane &&& lanes ≠ NoLanes then (SyncLane, SyncLanePriority)
  else if SyncBatchedLane &&& lanes ≠ NoLanes then (SyncBatchedLane, SyncBatchedLanePriority)
  else if InputDiscreteHydrationLane &&& lanes ≠ NoLanes then
    (InputDiscreteHydrationLane, InputDiscreteHydrationLanePriority)
  else if InputDiscreteLanes &&& lanes ≠ NoLanes then
    (InputDiscreteLanes &&& lanes, InputDiscreteLanePriority)
  else if lanes &&& InputContinuousHydrationLane ≠ NoLanes then
    (InputContinuousHydrationLane, InputContinuousHydrationLanePriority)
  else if InputContinuousLanes &&& lanes ≠ NoLanes then
    (InputContinuousLanes &&& lanes, InputContinuousLanePriority)
  else if lanes &&& DefaultHydrationLane ≠ NoLanes then
    (DefaultHydrationLane, DefaultHydrationLanePriority)
  else if DefaultLanes &&& lanes ≠ NoLanes then (DefaultLanes &&& lanes, DefaultLanePriority)
  else if lanes &&& TransitionHydrationLane ≠ NoLanes then
    (TransitionHydrationLane, TransitionHydrationPriority)
  else if TransitionLanes &&& lanes ≠ NoLanes then (TransitionLanes &&& lanes, TransitionPriority)
  else if RetryLanes &&& lanes ≠ NoLanes then (RetryLanes &&& lanes, RetryLanePriority)
  else if lanes &&& SelectiveHydrationLane ≠ NoLanes then
    (SelectiveHydrationLane, SelectiveHydrationLanePriority)
  else if lanes &&& IdleHydrationLane ≠ NoLanes then
    (IdleHydrationLane, IdleHydrationLanePriority)
  else if IdleLanes &&& lanes ≠ NoLanes then (IdleLanes &&& lanes, IdleLanePriority)
  else if OffscreenLane &&& lanes ≠ NoLanes then (OffscreenLane, OffscreenLanePriority)
  else (lanes, DefaultLanePriority)

/-- Source `markRootUpdated`: adds the update lane to `pendingLanes`, keeps
only the strictly-higher-priority suspended and pinged lanes (masking with
`updateLane - 1`, so every lane of equal or lower priority is unsuspended and
unpinged) and records the event time at the lane's index. -/
def markRootUpdated (root : FiberRoot) (updateLane : Nat) (eventTime : Int) : FiberRoot :=
  let higherPriorityLanes := updateLane - 1
  { root with
    pendingLanes := root.pendingLanes ||| updateLane
    suspendedLanes := root.suspendedLanes &&& higherPriorityLanes
    pingedLanes := root.pingedLanes &&& higherPriorityLanes
    eventTimes := fun j => if j = laneToIndex updateLane then eventTime else root.eventTimes j }

/-- The selection block of `getNextLanes` (expired check, then non-idle
unblocked, non-idle pinged, idle unblocked, pinged), returning `nextLanes`
together with `nextLanePriority`. A `(0, 0)` result means no lanes were
selected and `nextLanePriority` kept its `NoLanePriority` initial value. -/
def getNextLanesSelection (root : FiberRoot) : Nat × Nat :=
  if root.expiredLanes ≠ NoLanes then (root.expiredLanes, SyncLanePriority)
  else
    let nonIdlePendingLanes := root.pendingLanes &&& NonIdleLanes
    if nonIdlePendingLanes ≠ NoLanes then
      let nonIdleUnblockedLanes := nonIdlePendingLanes &&& lnot31 root.suspendedLanes
      if nonIdleUnblockedLanes ≠ NoLanes then getHighestPriorityLanes nonIdleUnblockedLanes
      else
        let nonIdlePingedLanes := nonIdlePendingLanes &&& root.pingedLanes
        if nonIdlePingedLanes ≠ NoLanes then getHighestPriorityLanes nonIdlePingedLanes
        else (NoLanes, NoLanePriority)
    else
      let unblockedLanes := root.pendingLanes &&& lnot31 root.suspendedLanes
      if unblockedLanes ≠ NoLanes then getHighestPriorityLanes unblockedLanes
      else if root.pingedLanes ≠ NoLanes then getHighestPriorityLanes root.pingedLanes
      else (NoLanes, NoLanePriority)

/-- The entanglement block at the end of `getNextLanes`: for every lane of
`nextLanes & entangledLanes` the associated `entanglements` entry is unioned
into `nextLanes`. The iteration mask is computed once, before any union. -/
def applyEntanglements (root : FiberRoot) (nextLanes : Nat) : Nat :=
  if root.entangledLanes ≠ NoLanes then
    foldBits (nextLanes &&& root.entangledLanes)
      (fun index acc => acc ||| root.entanglements index) nextLanes
  else nextLanes

/-- The tail of `getNextLanes` once a non-empty selection `sp` was made:
widen to every pending lane of equal or higher priority, possibly return the
work-in-progress lanes unchanged (when they are not suspended and not less
urgent than the widened `nextLanes` choice), otherwise apply entanglements.
The second component is the final value of the `return_highestLanePriority`
register. -/
def getNextLanesAfterSelection (root : FiberRoot) (wipLanes : Nat) (sp : Nat × Nat) : Nat × Nat :=
  if wipLanes ≠ NoLanes ∧
      wipLanes ≠ root.pendingLanes &&& getEqualOrHigherPriorityLanes sp.1 ∧
      wipLanes &&& root.suspendedLanes = NoLanes then
    if sp.2 ≤ (getHighestPriorityLanes wipLanes).2 then
      (wipLanes, (getHighestPriorityLanes wipLanes).2)
    else
      (applyEntanglements root (root.pendingLanes &&& getEqualOrHigherPriorityLanes sp.1), sp.2)
  else (applyEntanglements root (root.pendingLanes &&& getEqualOrHigherPriorityLanes sp.1), sp.2)

/-- Source `getNextLanes(root, wipLanes)`. `rhp0` is the incoming value of
the module-global `return_highestLanePriority` register; the result is the
chosen lane set together with the register's final value. -/
def getNextLanes (root : FiberRoot) (wipLanes : Nat) (rhp0 : Nat) : Nat × Nat :=
  if root.pendingLanes = NoLanes then (NoLanes, NoLanePriority)
  else if (getNextLanesSelection root).1 = NoLanes then (NoLanes, rhp0)
  else getNextLanesAfterSelection root wipLanes (getNextLanesSelection root)

/-- Source `computeExpirationTime`: classifies the lane through
`getHighestPriorityLanes` and offsets the current time by 250 for
input-continuous priority or above, by 5000 for transition priority or above,
and returns `NoTimestamp` (never expires) below that. -/
def computeExpirationTime (lane : Nat) (currentTime : Int) : Int :=
  let priority := (getHighestPriorityLanes lane).2
  if InputContinuousLanePriority ≤ priority then currentTime + 250
  else if TransitionPriority ≤ priority then currentTime + 5000
  else NoTimestamp

/-- Loop body of `markStarvedLanesAsExpired` for one lane index, acting on
the pair of the `expirationTimes` table and the `expiredLanes` accumulator.
The suspended and pinged masks are read from the root before the loop. -/
def starvedBody (suspendedLanes pingedLanes : Nat) (currentTime : Int) (index : Nat)
    (st : (Nat → Int) × Nat) : (Nat → Int) × Nat :=
  let lane := 1 <<< index
  if st.1 index = NoTimestamp then
    if lane &&& suspendedLanes = NoLanes ∨ lane &&& pingedLanes ≠ NoLanes then
      (fun j => if j = index then computeExpirationTime lane currentTime else st.1 j, st.2)
    else st
  else if st.1 index ≤ currentTime then (st.1, st.2 ||| lane)
  else st

/-- Source `markStarvedLanesAsExpired`: walks the pending lanes; a lane with
no recorded expiration time that is not suspended (or is pinged) gets one from
`computeExpirationTime`; a lane whose recorded expiration time has passed is
unioned into `expiredLanes`. -/
def markStarvedLanesAsExpired (root : FiberRoot) (currentTime : Int) : FiberRoot :=
  let st := foldBits root.pendingLanes
    (starvedBody root.suspendedLanes root.pingedLanes currentTime)
    (root.expirationTimes, root.expiredLanes)
  { root with expirationTimes := st.1, expiredLanes := st.2 }

/-- Loop body of `markRootFinished` for one no-longer-pending lane index:
resets that lane's slot in the `entanglements`, `eventTimes` and
`expirationTimes` tables. -/
def finishedBody (index : Nat) (tbls : (Nat → Nat) × (Nat → Int) × (Nat → Int)) :
    (Nat → Nat) × (Nat → Int) × (Nat → Int) :=
  (fun j => if j = index then NoLanes else tbls.1 j,
   fun j => if j = index then NoTimestamp else tbls.2.1 j,
   fun j => if j = index then NoTimestamp else tbls.2.2 j)

/-- Source `markRootFinished`: `pendingLanes` becomes `remainingLanes`,
suspended and pinged are cleared, the other registers are intersected with
`remainingLanes`, and every lane no longer pending has its `entanglements`,
`eventTimes` and `expirationTimes` slots reset. -/
def markRootFinished (root : FiberRoot) (remainingLanes : Nat) : FiberRoot :=
  let noLongerPendingLanes := root.pendingLanes &&& lnot31 remainingLanes
  let cleared := foldBits noLongerPendingLanes finishedBody
    (root.entanglements, root.eventTimes, root.expirationTimes)
  { root with
    pendingLanes := remainingLanes
    suspendedLanes := NoLanes
    pingedLanes := NoLanes
    expiredLanes := root.expiredLanes &&& remainingLanes
    mutableReadLanes := root.mutableReadLanes &&& remainingLanes
    entangledLanes := root.entangledLanes &&& remainingLanes
    entanglements := cleared.1
    eventTimes := cleared.2.1
    expirationTimes := cleared.2.2 }

/-- Loop body of `markRootEntangled` for one lane index of the argument:
unions the whole argument into that lane's `entanglements` entry. -/
def entangledBody (entangledLanes index : Nat) (ents : Nat → Nat) : Nat → Nat :=
  fun j => if j = index then ents index ||| entangledLanes else ents j

/-- Source `markRootEntangled`: unions the new lanes into `entangledLanes`
and, for every lane of the argument, unions the whole argument into that
lane's `entanglements` entry. -/
def markRootEntangled (root : FiberRoot) (entangledLanes : Nat) : FiberRoot :=
  { root with
    entangledLanes := root.entangledLanes ||| entangledLanes
    entanglements := foldBits entangledLanes (entangledBody entangledLanes) root.entanglements }

/-! Task scheduler (`Scheduler.js` and `SchedulerPriorities.js`). -/

abbrev NoPriority : Nat := 0
abbrev ImmediatePriority : Nat := 1
abbrev UserBlockingPriority : Nat := 2
abbrev NormalPriority : Nat := 3
abbrev LowPriority : Nat := 4
abbrev IdlePriority : Nat := 5

abbrev maxSigned31BitInt : Int := 1073741823
abbrev IMMEDIATE_PRIORITY_TIMEOUT : Int := -1
abbrev USER_BLOCKING_PRIORITY_TIMEOUT : Int := 250
abbrev NORMAL_PRIORITY_TIMEOUT : Int := 5000
abbrev LOW_PRIORITY_TIMEOUT : Int := 10000
abbrev IDLE_PRIORITY_TIMEOUT : Int := maxSigned31BitInt

/-- Resumable task callbacks. A callback receives `didUserCallbackTimeout`,
consumes some amount of host time (the `Int` component, which the scheduler
observes through the `getCurrentTime()` call right after the invocation) and
returns `some` continuation exactly when the source callback returns another
function, meaning more work remains on the same task. -/
inductive CB where
  | mk : (Bool → Int × Option CB) → CB

/-- The task record built by `unstable_scheduleCallback`. -/
structure Task where
  id : Nat
  callback : Option CB
  priorityLevel : Nat
  startTime : Int
  expirationTime : Int
  sortIndex : Int

/-- Modelled from the spec: `SchedulerMinHeap.js` is imported by
`Scheduler.js` but its source is not part of this repository; the spec fixes
its node ordering as primary key `sortIndex` ascending with the insertion
`id` as ascending tiebreak. -/
def taskBefore (a b : Task) : Bool :=
  decide (a.sortIndex < b.sortIndex ∨ (a.sortIndex = b.sortIndex ∧ a.id < b.id))

/-- Modelled from the spec: the min-heap contract of the missing
`SchedulerMinHeap.js` (`push` inserts, `peek` returns the minimum, `pop`
removes it) is realised by a list kept sorted under `taskBefore`, so the head
is always the minimum. -/
def push (q : List Task) (t : Task) : List Task :=
  match q with
  | [] => [t]
  | h :: rest => if taskBefore t h then t :: h :: rest else h :: push rest t

/-- Modelled from the spec: `peek` of the min-heap returns the minimum node
or null; on the sorted-list model that is the head. -/
def peek (q : List Task) : Option Task := q.head?

/-- Scheduler module state: the two queues, the monotonic task id counter and
the ambient priority level. Host conditions (timer requests, callback
requests) are I/O and are not part of the state. -/
structure SchedulerState where
  taskQueue : List Task
  timerQueue : List Task
  taskIdCounter : Nat
  currentPriorityLevel : Nat

/-- Source `advanceTimers` loop: repeatedly examine the head of the timer
queue; a cancelled timer (null callback) is popped and dropped, a due timer is
popped and pushed onto the task queue with `sortIndex` reset to its
`expirationTime`, and the loop stops at the first timer still in the future. -/
def advanceTimersGo (currentTime : Int) : List Task → List Task → List Task × List Task
  | [], taskQueue => ([], taskQueue)
  | timer :: rest, taskQueue =>
    if timer.callback.isNone then advanceTimersGo currentTime rest taskQueue
    else if timer.startTime ≤ currentTime then
      advanceTimersGo currentTime rest (push taskQueue { timer with sortIndex := timer.expirationTime })
    else (timer :: rest, taskQueue)

/-- Source `advanceTimers(currentTime)` acting on the scheduler state. -/
def advanceTimers (currentTime : Int) (s : SchedulerState) : SchedulerState :=
  let qs := advanceTimersGo currentTime s.timerQueue s.taskQueue
  { s with timerQueue := qs.1, taskQueue := qs.2 }

/-- Source `shouldYieldToHost` (host config without `isInputPending`):
`getCurrentTime() >= deadline`. -/
def shouldYieldToHost (deadline currentTime : Int) : Bool := decide (deadline ≤ currentTime)

/-- Result of one `workLoop` invocation: the scheduler state, the final value
of `currentTime`, the ids of the tasks whose callbacks were invoked (in
order), and the returned boolean (whether more work remains). -/
structure WorkLoopResult where
  state : SchedulerState
  currentTime : Int
  invoked : List Nat
  hasMoreWork : Bool

/-- The `while` loop of the source `workLoop`. `fuel` bounds the number of
iterations (the JS loop needs no bound; theorems supply enough fuel, and on
exhaustion the result reports whether tasks remain). Startup: the head task is
`currentTask`; if it has not expired and the slice budget is gone, break and
report more work. Otherwise a null callback means the task was cancelled: pop
and continue. A live callback is invoked with `didUserCallbackTimeout`; a
callable return value is stored back as the task's callback (the task is not
popped), otherwise the task is popped; then due timers are promoted and the
loop advances. An empty queue returns false. -/
def workLoopGo : Nat → Bool → Int → Int → SchedulerState → WorkLoopResult
  | 0, _, _, currentTime, s => ⟨s, currentTime, [], !s.taskQueue.isEmpty⟩
  | fuel + 1, hasTimeRemaining, deadline, currentTime, s =>
    match s.taskQueue with
    | [] => ⟨s, currentTime, [], false⟩
    | currentTask :: rest =>
      if currentTask.expirationTime > currentTime ∧
          (hasTimeRemaining = false ∨ shouldYieldToHost deadline currentTime = true) then
        ⟨s, currentTime, [], true⟩
      else
        match currentTask.callback with
        | none => workLoopGo fuel hasTimeRemaining deadline currentTime { s with taskQueue := rest }
        | some (CB.mk cb) =>
          let didUserCallbackTimeout := decide (currentTask.expirationTime ≤ currentTime)
          let r := cb didUserCallbackTimeout
          let newTime := currentTime + r.1
          let s1 : SchedulerState :=
            match r.2 with
            | some continuation =>
              { s with currentPriorityLevel := currentTask.priorityLevel,
                       taskQueue := { currentTask with callback := some continuation } :: rest }
            | none =>
              { s with currentPriorityLevel := currentTask.priorityLevel, taskQueue := rest }
          let s2 := advanceTimers newTime s1
          let res := workLoopGo fuel hasTimeRemaining deadline newTime s2
          ⟨res.state, res.currentTime, currentTask.id :: res.invoked, res.hasMoreWork⟩

/-- Source `workLoop(hasTimeRemaining, initialTime)`: promote due timers,
then run the loop. -/
def workLoop (fuel : Nat) (hasTimeRemaining : Bool) (deadline initialTime : Int)
    (s : SchedulerState) : WorkLoopResult :=
  workLoopGo fuel hasTimeRemaining deadline initialTime (advanceTimers initialTime s)

/-- The `switch (priorityLevel)` of `unstable_scheduleCallback`: the fixed
per-priority timeout table, in the source's case order, with
`NORMAL_PRIORITY_TIMEOUT` for `NormalPriority` and any other value. -/
def scheduleTimeout (priorityLevel : Nat) : Int :=
  if priorityLevel = ImmediatePriority then IMMEDIATE_PRIORITY_TIMEOUT
  else if priorityLevel = UserBlockingPriority then USER_BLOCKING_PRIORITY_TIMEOUT
  else if priorityLevel = IdlePriority then IDLE_PRIORITY_TIMEOUT
  else if priorityLevel = LowPriority then LOW_PRIORITY_TIMEOUT
  else NORMAL_PRIORITY_TIMEOUT

/-- Source `unstable_scheduleCallback(priorityLevel, callback, options)`:
`startTime` is now plus any positive delay, the timeout comes from the fixed
per-priority table, `expirationTime = startTime + timeout`; a delayed task
goes to the timer queue keyed by `startTime`, otherwise to the task queue
keyed by `expirationTime`. Host callback/timer requests are I/O and elided.
Returns the updated state and the new task. -/
def unstable_scheduleCallback (s : SchedulerState) (currentTime : Int) (priorityLevel : Nat)
    (callback : CB) (delay : Option Int) : SchedulerState × Task :=
  let startTime :=
    match delay with
    | some d => if 0 < d then currentTime + d else currentTime
    | none => currentTime
  let timeout := scheduleTimeout priorityLevel
  let expirationTime := startTime + timeout
  let newTask : Task :=
    { id := s.taskIdCounter, callback := some callback, priorityLevel := priorityLevel,
      startTime := startTime, expirationTime := expirationTime, sortIndex := -1 }
  if currentTime < startTime then
    let newTask := { newTask with sortIndex := startTime }
    ({ s with timerQueue := push s.timerQueue newTask, taskIdCounter := s.taskIdCounter + 1 },
      newTask)
  else
    let newTask := { newTask with sortIndex := expirationTime }
    ({ s with taskQueue := push s.taskQueue newTask, taskIdCounter := s.taskIdCounter + 1 },
      newTask)

/-- Source `unstable_cancelCallback(task)`: null out the callback; the task
stays in its heap and is lazily dropped when popped. -/
def unstable_cancelCallback (task : Task) : Task := { task with callback := none }

/-- Cancellation acting on a queue: the JS heaps hold references to the task
object, so nulling `task.callback` is visible inside the queues; here every
entry carrying the task's id is updated. -/
def cancelTaskById (q : List Task) (i : Nat) : List Task :=
  q.map fun t => if t.id = i then unstable_cancelCallback t else t

/-- Source `unstable_runWithPriority(priorityLevel, eventHandler)`: an
unrecognized priority level silently falls back to `NormalPriority` (never an
error); the handler runs with the ambient priority set to the validated
level (it receives that level, as `unstable_getCurrentPriorityLevel` would
report it) and may succeed or throw (`Except.error`); the previous ambient
priority — the first component of the result — is restored afterwards in
either case (the source's `finally`). -/
def unstable_runWithPriority {E A : Type} (currentPriorityLevel : Nat) (priorityLevel : Nat)
    (eventHandler : Nat → Except E A) : Nat × Except E A :=
  let validated :=
    if priorityLevel = ImmediatePriority ∨ priorityLevel = UserBlockingPriority ∨
        priorityLevel = NormalPriority ∨ priorityLevel = LowPriority ∨
        priorityLevel = IdlePriority
    then priorityLevel else NormalPriority
  let previousPriorityLevel := currentPriorityLevel
  (previousPriorityLevel, eventHandler validated)

/-! Concrete roots, tasks and scheduler states used by the verification
instances further below. -/

def c1Root : FiberRoot := { emptyRoot with suspendedLanes := 3, pingedLanes := 3 }

def c1CexRoot : FiberRoot := { emptyRoot with suspendedLanes := SyncLane }

def c2Root : FiberRoot := { emptyRoot with pendingLanes := 513, expiredLanes := 512 }

def c2WRoot : FiberRoot := { emptyRoot with pendingLanes := 512, expiredLanes := 512 }

def c3Root : FiberRoot :=
  markRootEntangled (markRootUpdated (markRootUpdated emptyRoot 512 0) 1024 0) 1536

def c3WRoot : FiberRoot := { emptyRoot with pendingLanes := 1536 }

def c8Root : FiberRoot := { emptyRoot with pendingLanes := 512 }

def c9Root : FiberRoot :=
  { emptyRoot with
    pendingLanes := 3
    suspendedLanes := 2
    pingedLanes := 2
    expiredLanes := 1
    entangledLanes := 3
    mutableReadLanes := 1 }

def noopCB : CB := CB.mk fun _ => (0, none)

def c4State : SchedulerState :=
  { taskQueue := [], timerQueue := [], taskIdCounter := 1,
    currentPriorityLevel := NormalPriority }

def c5Cont : CB := CB.mk fun _ => (0, none)

def c5Body : Bool → Int × Option CB := fun _ => (10, some c5Cont)

def c5Task : Task :=
  { id := 1, callback := some (CB.mk c5Body), priorityLevel := NormalPriority,
    startTime := 0, expirationTime := 5000, sortIndex := 5000 }

def c5State : SchedulerState :=
  { taskQueue := [c5Task], timerQueue := [], taskIdCounter := 2,
    currentPriorityLevel := NormalPriority }

def c5CexBody : Bool → Int × Option CB := fun _ => (0, some (CB.mk fun _ => (0, none)))

def c5CexTask : Task :=
  { id := 7, callback := some (CB.mk c5CexBody), priorityLevel := NormalPriority,
    startTime := 0, expirationTime := 0, sortIndex := 0 }

def c5CexState : SchedulerState :=
  { taskQueue := [c5CexTask], timerQueue := [], taskIdCounter := 8,
    currentPriorityLevel := NormalPriority }

def c6Handler : Nat → Except Unit Nat := fun _ => Except.error ()

def c7Task : Task :=
  { id := 3, callback := some noopCB, priorityLevel := NormalPriority,
    startTime := 0, expirationTime := 0, sortIndex := 0 }

def c7Timer : Task :=
  { id := 3, callback := some noopCB, priorityLevel := NormalPriority,
    startTime := 2, expirationTime := 5002, sortIndex := 2 }

def c7State : SchedulerState :=
  { taskQueue := [c7Task], timerQueue := [c7Timer], taskIdCounter := 4,
    currentPriorityLevel := NormalPriority }

/-- Cleanliness of a queue with respect to a task id: every entry carrying
that id has a null callback (the state after cancellation). -/
def cleanFor (i : Nat) (q : List Task) : Prop :=
  ∀ t ∈ q, t.id = i → t.callback = none

/-! Generic lemmas about `foldBits` and the bit primitives. -/

/-- List-level form of `foldBits_proj`: when the loop body touches only the
components selected by `proj` at its own index, the fold's effect at index `k`
is the single application of the body at `k` (or nothing). -/
theorem foldr_proj {α γ : Type} (mask : Nat) (f : Nat → α → α) (proj : α → γ) (k : Nat)
    (hmiss : ∀ i acc, i ≠ k → proj (f i acc) = proj acc)
    (hdep : ∀ acc acc2, proj acc = proj acc2 → proj (f k acc) = proj (f k acc2))
    (l : List Nat) (hnd : l.Nodup) (init : α) :
    proj (l.foldr (fun i acc => if mask.testBit i then f i acc else acc) init) =
      if k ∈ l ∧ mask.testBit k = true then proj (f k init) else proj init := by
  induction l with
  | nil => simp
  | cons i l ih =>
    have hnotmem : i ∉ l := (List.nodup_cons.mp hnd).1
    have ihap := ih (List.nodup_cons.mp hnd).2
    rw [List.foldr_cons]
    by_cases hik : i = k
    · subst hik
      by_cases hm : mask.testBit i = true
      · rw [if_pos hm]
        have hinner : proj (l.foldr (fun i acc => if mask.testBit i then f i acc else acc) init)
            = proj init := by
          rw [ihap, if_neg]
          intro hcon
          exact hnotmem hcon.1
        rw [hdep _ _ hinner, if_pos ⟨List.mem_cons_self i l, hm⟩]
      · rw [if_neg hm, ihap, if_neg, if_neg]
        · intro hcon; exact hm hcon.2
        · intro hcon; exact hm hcon.2
    · have houter :
          proj (if mask.testBit i then
            f i (l.foldr (fun i acc => if mask.testBit i then f i acc else acc) init)
          else l.foldr (fun i acc => if mask.testBit i then f i acc else acc) init)
          = proj (l.foldr (fun i acc => if mask.testBit i then f i acc else acc) init) := by
        split
        · exact hmiss i _ hik
        · rfl
      have hiff : (k ∈ i :: l ∧ mask.testBit k = true) ↔ (k ∈ l ∧ mask.testBit k = true) := by
        constructor
        · rintro ⟨hmem2, hb⟩
          rcases List.mem_cons.mp hmem2 with rfl | hmem3
          · exact absurd rfl hik
          · exact ⟨hmem3, hb⟩
        · rintro ⟨hmem2, hb⟩
          exact ⟨List.mem_cons_of_mem i hmem2, hb⟩
      rw [houter, ihap, if_congr hiff rfl rfl]

/-- The effect of a `foldBits` loop at one index `k`, when the loop body only
touches the components selected by `proj` at its own index. -/
theorem foldBits_proj {α γ : Type} (mask : Nat) (f : Nat → α → α) (proj : α → γ) (k : Nat)
    (hmiss : ∀ i acc, i ≠ k → proj (f i acc) = proj acc)
    (hdep : ∀ acc acc2, proj acc = proj acc2 → proj (f k acc) = proj (f k acc2))
    (init : α) :
    proj (foldBits mask f init) =
      if k < 31 ∧ mask.testBit k = true then proj (f k init) else proj init := by
  unfold foldBits
  rw [foldr_proj mask f proj k hmiss hdep (List.range 31) (List.nodup_range 31) init]
  simp [List.mem_range]

/-- List-level form of `foldBits_lor_testBit`. -/
theorem foldr_lor_testBit (mask : Nat) (g : Nat → Nat) (j : Nat) (l : List Nat) (init : Nat) :
    ((l.foldr (fun i acc => if mask.testBit i then acc ||| g i else acc) init).testBit j = true) ↔
      (init.testBit j = true ∨ ∃ i ∈ l, mask.testBit i = true ∧ (g i).testBit j = true) := by
  induction l with
  | nil => simp
  | cons i l ih =>
    rw [List.foldr_cons]
    by_cases hm : mask.testBit i = true
    · rw [if_pos hm, Nat.testBit_or]
      simp only [Bool.or_eq_true, ih, List.mem_cons]
      constructor
      · rintro ((h | ⟨w, hw, hmw, hgw⟩) | hgi)
        · exact Or.inl h
        · exact Or.inr ⟨w, Or.inr hw, hmw, hgw⟩
        · exact Or.inr ⟨i, Or.inl rfl, hm, hgi⟩
      · rintro (h | ⟨w, (rfl | hw), hmw, hgw⟩)
        · exact Or.inl (Or.inl h)
        · exact Or.inr hgw
        · exact Or.inl (Or.inr ⟨w, hw, hmw, hgw⟩)
    · rw [if_neg hm]
      simp only [ih, List.mem_cons]
      constructor
      · rintro (h | ⟨w, hw, hmw, hgw⟩)
        · exact Or.inl h
        · exact Or.inr ⟨w, Or.inr hw, hmw, hgw⟩
      · rintro (h | ⟨w, (rfl | hw), hmw, hgw⟩)
        · exact Or.inl h
        · exact absurd hmw hm
        · exact Or.inr ⟨w, hw, hmw, hgw⟩

/-- Bits of a `foldBits` loop that only unions values into an accumulator:
a bit is set in the result exactly when it was set initially or some selected
index contributes it. -/
theorem foldBits_lor_testBit (mask : Nat) (g : Nat → Nat) (init j : Nat) :
    ((foldBits mask (fun i acc => acc ||| g i) init).testBit j = true) ↔
      (init.testBit j = true ∨
        ∃ i, i < 31 ∧ mask.testBit i = true ∧ (g i).testBit j = true) := by
  unfold foldBits
  rw [foldr_lor_testBit]
  simp [List.mem_range]

/-- A nonzero mask has a set bit. -/
theorem exists_testBit_of_ne_zero {x : Nat} (hx : x ≠ 0) : ∃ j, x.testBit j = true := by
  by_contra h
  push_neg at h
  apply hx
  apply Nat.eq_of_testBit_eq
  intro j
  rw [Nat.zero_testBit]
  simpa using h j

/-- The downward bit search finds an index at least as large as any set bit
below its starting point. -/
theorem pickSearch_ge (x : Nat) :
    ∀ i j, j ≤ i → x.testBit j = true → j ≤ pickSearch x i := by
  intro i
  induction i with
  | zero =>
    intro j hj _
    unfold pickSearch
    exact hj
  | succ i ih =>
    intro j hj hbit
    unfold pickSearch
    split
    · exact hj
    · rename_i hmiss
      have hji : j ≤ i := by
        rcases Nat.lt_or_ge j (i + 1) with h1 | h1
        · omega
        · have hj1 : j = i + 1 := by omega
          rw [hj1] at hbit
          exact absurd hbit (by simpa using hmiss)
      exact ih j hji hbit

/-- Every set bit of a 31-bit mask sits at or below `pickArbitraryLaneIndex`. -/
theorem testBit_le_pickArbitraryLaneIndex (x j : Nat) (hx : x < 2 ^ 31)
    (hbit : x.testBit j = true) : j ≤ pickArbitraryLaneIndex x := by
  have hj : j < 31 := by
    by_contra hcon
    have hlt : x < 2 ^ j :=
      lt_of_lt_of_le hx (Nat.pow_le_pow_right (by norm_num) (by omega))
    rw [Nat.testBit_lt_two_pow hlt] at hbit
    exact absurd hbit (by simp)
  exact pickSearch_ge x 30 j (by omega) hbit

/-- The index of a single lane is its bit position. -/
theorem laneToIndex_shiftLeft : ∀ k < 31, laneToIndex (1 <<< k) = k := by decide

/-- Subset from pointwise bit containment. -/
theorem isSubsetOfLanes_of_testBit {s sub : Nat}
    (h : ∀ j, sub.testBit j = true → s.testBit j = true) : isSubsetOfLanes s sub := by
  apply Nat.eq_of_testBit_eq
  intro j
  rw [Nat.testBit_and]
  cases hb : sub.testBit j
  · simp
  · simp [h j hb]

/-- Unioning and then intersecting with the same mask yields the mask. -/
theorem lor_land_self (e L : Nat) : (e ||| L) &&& L = L := by
  apply Nat.eq_of_testBit_eq
  intro j
  rw [Nat.testBit_and, Nat.testBit_or]
  cases e.testBit j <;> cases L.testBit j <;> rfl

/-- Intersecting with a mask gives a subset of that mask. -/
theorem land_subset_self (x y : Nat) : isSubsetOfLanes x (y &&& x) := by
  apply Nat.eq_of_testBit_eq
  intro j
  simp only [Nat.testBit_and]
  cases x.testBit j <;> cases y.testBit j <;> rfl

/-! Characterizations of the lane-marking loops. -/

/-- The entangle loop body leaves other indices alone. -/
theorem entangledBody_miss (L i k : Nat) (acc : Nat → Nat) (hik : i ≠ k) :
    entangledBody L i acc k = acc k := by
  unfold entangledBody
  rw [if_neg (fun h => hik h.symm)]

/-- The entangle loop body at its own index unions in the argument. -/
theorem entangledBody_hit (L k : Nat) (acc : Nat → Nat) :
    entangledBody L k acc k = acc k ||| L := by
  unfold entangledBody
  rw [if_pos rfl]

/-- Slotwise effect of `markRootEntangled` on the `entanglements` table. -/
theorem markRootEntangled_entanglements (root : FiberRoot) (L k : Nat) :
    (markRootEntangled root L).entanglements k =
      if k < 31 ∧ L.testBit k = true then root.entanglements k ||| L
      else root.entanglements k := by
  have H := foldBits_proj L (entangledBody L) (fun tbl => tbl k) k
    (fun i acc hik => entangledBody_miss L i k acc hik)
    (fun acc acc2 h => by
      show entangledBody L k acc k = entangledBody L k acc2 k
      rw [entangledBody_hit, entangledBody_hit]
      rw [show acc k = acc2 k from h])
    root.entanglements
  simp only at H
  rw [entangledBody_hit] at H
  exact H

/-- Bits of the result of the entanglement block of `getNextLanes`. -/
theorem applyEntanglements_testBit (root : FiberRoot) (nx j : Nat) :
    ((applyEntanglements root nx).testBit j = true) ↔
      (nx.testBit j = true ∨ ∃ i, i < 31 ∧ (nx &&& root.entangledLanes).testBit i = true
        ∧ (root.entanglements i).testBit j = true) := by
  unfold applyEntanglements
  split
  · exact foldBits_lor_testBit (nx &&& root.entangledLanes) root.entanglements nx j
  · rename_i h
    have he : root.entangledLanes = 0 := by
      by_contra hc
      exact absurd hc h
    constructor
    · exact Or.inl
    · rintro (hb | ⟨i, _, hm, _⟩)
      · exact hb
      · rw [he] at hm
        simp [Nat.testBit_and] at hm

/-- With no work in progress, `getNextLanes` either selects nothing or runs
the widening and entanglement steps on the selection. -/
theorem getNextLanes_noWip_shape (root : FiberRoot) (rhp0 : Nat) :
    (getNextLanes root NoLanes rhp0).1 = NoLanes ∨
      (getNextLanes root NoLanes rhp0).1 =
        applyEntanglements root
          (root.pendingLanes &&&
            getEqualOrHigherPriorityLanes (getNextLanesSelection root).1) := by
  unfold getNextLanes
  split
  · exact Or.inl rfl
  · split
    · exact Or.inl rfl
    · right
      unfold getNextLanesAfterSelection
      rw [if_neg]
      rintro ⟨hcon, -⟩
      exact hcon rfl

/-! Claim C10. -/

/-- Claim C10: after `markRootEntangled(root, L)` with nonempty `L`, the set
`L` is a subset of `entangledLanes`; every lane of `L` has an `entanglements`
entry containing all of `L` (in particular itself); and no previously
recorded `entanglements` bit or `entangledLanes` bit is cleared. -/
theorem c10_markRootEntangled (root : FiberRoot) (L k j : Nat)
    (hL0 : L ≠ NoLanes) (hL : L < 2 ^ 31) :
    isSubsetOfLanes (markRootEntangled root L).entangledLanes L
    ∧ (L.testBit k = true → isSubsetOfLanes ((markRootEntangled root L).entanglements k) L)
    ∧ ((root.entanglements k).testBit j = true →
        ((markRootEntangled root L).entanglements k).testBit j = true)
    ∧ (root.entangledLanes.testBit j = true →
        (markRootEntangled root L).entangledLanes.testBit j = true) := by
  refine ⟨?_, ?_, ?_, ?_⟩
  · show (root.entangledLanes ||| L) &&& L = L
    exact lor_land_self _ _
  · intro hk
    have hk31 : k < 31 := by
      by_contra hcon
      have hlt : L < 2 ^ k :=
        lt_of_lt_of_le hL (Nat.pow_le_pow_right (by norm_num) (by omega))
      rw [Nat.testBit_lt_two_pow hlt] at hk
      exact absurd hk (by simp)
    show (markRootEntangled root L).entanglements k &&& L = L
    rw [markRootEntangled_entanglements, if_pos ⟨hk31, hk⟩]
    exact lor_land_self _ _
  · intro hj
    rw [markRootEntangled_entanglements]
    split
    · rw [Nat.testBit_or, hj]
      rfl
    · exact hj
  · intro hj
    show (root.entangledLanes ||| L).testBit j = true
    rw [Nat.testBit_or, hj]
    rfl

/-- Witness for C10 at a concrete root and lane set. -/
theorem c10_witness :
    isSubsetOfLanes (markRootEntangled emptyRoot 1536).entangledLanes 1536
    ∧ isSubsetOfLanes ((markRootEntangled emptyRoot 1536).entanglements 9) 1536 :=
  ⟨(c10_markRootEntangled emptyRoot 1536 9 0 (by decide) (by decide)).1,
   (c10_markRootEntangled emptyRoot 1536 9 0 (by decide) (by decide)).2.1 (by decide)⟩

/-! Claim C3. -/

/-- Claim C3 counterexample: on a root where lanes 512 and 1024 were marked
entangled through `markRootEntangled`, calling `getNextLanes` with the
work-in-progress lanes 512 takes the continue-work-in-progress early return:
the result contains lane 512 (= A) but not its entangled partner 1024 (= B),
so the claim fails for that `workInProgressLanes` argument. -/
theorem c3_counterexample :
    (getNextLanes c3Root 512 NoLanePriority).1.testBit 9 = true
    ∧ (getNextLanes c3Root 512 NoLanePriority).1.testBit 10 = false := by decide

/-- Claim C3 (amended): when no render is in progress
(`workInProgressLanes = NoLanes`) and the root's entanglement state comes
from `markRootEntangled(root, L)` on a root with no prior entanglements, then
for any two lanes `A = 2 ^ a` and `B = 2 ^ b` of `L`, a `getNextLanes` result
containing `A` also contains `B`. (With a nonzero `workInProgressLanes` the
continue-work-in-progress early return can drop `B`, and stacked earlier
entanglements are unioned in only one round.) -/
theorem c3_entanglement (root0 : FiberRoot) (L a b rhp0 : Nat)
    (ha : a < 31) (hb : b < 31)
    (hLa : L.testBit a = true) (hLb : L.testBit b = true)
    (hent0 : root0.entangledLanes = NoLanes)
    (hents0 : ∀ j, root0.entanglements j = NoLanes) :
    ((getNextLanes (markRootEntangled root0 L) NoLanes rhp0).1.testBit a = true) →
      (getNextLanes (markRootEntangled root0 L) NoLanes rhp0).1.testBit b = true := by
  intro hres
  have hE : (markRootEntangled root0 L).entangledLanes = L := by
    show root0.entangledLanes ||| L = L
    rw [hent0]
    exact Nat.zero_or L
  have hents : ∀ k, (markRootEntangled root0 L).entanglements k =
      if k < 31 ∧ L.testBit k = true then L else 0 := by
    intro k
    rw [markRootEntangled_entanglements, hents0 k]
    split
    · exact Nat.zero_or L
    · rfl
  rcases getNextLanes_noWip_shape (markRootEntangled root0 L) rhp0 with hsh | hsh
  · rw [hsh] at hres
    exact absurd hres (by simp)
  · rw [hsh] at hres ⊢
    rw [applyEntanglements_testBit] at hres ⊢
    rcases hres with hnxa | ⟨i, hi31, hmask, henta⟩
    · right
      refine ⟨a, ha, ?_, ?_⟩
      · rw [Nat.testBit_and, hnxa, hE, hLa]
        rfl
      · rw [hents a, if_pos ⟨ha, hLa⟩]
        exact hLb
    · right
      refine ⟨i, hi31, hmask, ?_⟩
      by_cases hcond : i < 31 ∧ L.testBit i = true
      · rw [hents i, if_pos hcond]
        exact hLb
      · rw [hents i, if_neg hcond] at henta
        exact absurd henta (by simp)

/-- Witness for C3 at a concrete root: lanes 512 and 1024 entangled on a
fresh root with both pending. -/
theorem c3_witness :
    (getNextLanes (markRootEntangled c3WRoot 1536) NoLanes 0).1.testBit 10 = true :=
  c3_entanglement c3WRoot 1536 9 10 0 (by decide) (by decide) (by decide) (by decide)
    rfl (fun _ => rfl) (by decide)

/-! Claim C2. -/

/-- Claim C2 counterexample: `c2Root` has lane 512 expired (and pending,
along with `SyncLane`), yet `getNextLanes` called with `SyncLane` as the
work-in-progress lanes returns just `SyncLane` via the
continue-work-in-progress early return — the expired lane 512 is not
included, so the claim fails for that `workInProgressLanes` argument. -/
theorem c2_counterexample :
    c2Root.expiredLanes = 512
    ∧ (getNextLanes c2Root SyncLane NoLanePriority).1 &&& 512 = 0 := by decide

/-- Claim C2 (amended): when `expiredLanes` is nonempty and is a subset of
`pendingLanes` (an invariant the marking functions maintain) and no render is
in progress (`workInProgressLanes = NoLanes`), `getNextLanes` selects the
expired lanes at synchronous priority: every expired lane is in the result
and the recorded lane priority is `SyncLanePriority`. (With a nonzero
`workInProgressLanes` containing `SyncLane`, the continue-work-in-progress
early return can drop expired lanes.) -/
theorem c2_getNextLanes_expired (root : FiberRoot) (rhp0 : Nat)
    (hne : root.expiredLanes ≠ NoLanes)
    (hsub : isSubsetOfLanes root.pendingLanes root.expiredLanes)
    (hlt : root.expiredLanes < 2 ^ 31) :
    isSubsetOfLanes (getNextLanes root NoLanes rhp0).1 root.expiredLanes
    ∧ (getNextLanes root NoLanes rhp0).2 = SyncLanePriority := by
  have hpend : ∀ j, root.expiredLanes.testBit j = true →
      root.pendingLanes.testBit j = true := by
    intro j hj
    have h2 := congrArg (fun x => x.testBit j) hsub
    simp only [Nat.testBit_and] at h2
    rw [hj] at h2
    simpa using h2
  have hpne : root.pendingLanes ≠ NoLanes := by
    obtain ⟨j, hj⟩ := exists_testBit_of_ne_zero hne
    intro h0
    have hbit := hpend j hj
    rw [h0] at hbit
    exact absurd hbit (by simp)
  have hsel : getNextLanesSelection root = (root.expiredLanes, SyncLanePriority) := by
    unfold getNextLanesSelection
    rw [if_pos hne]
  have hsp1 : (getNextLanesSelection root).1 ≠ NoLanes := by
    rw [hsel]
    exact hne
  have hmain : getNextLanes root NoLanes rhp0 =
      (applyEntanglements root
        (root.pendingLanes &&& getEqualOrHigherPriorityLanes root.expiredLanes),
       SyncLanePriority) := by
    unfold getNextLanes
    rw [if_neg hpne, if_neg hsp1, hsel]
    unfold getNextLanesAfterSelection
    rw [if_neg]
    rintro ⟨hcon, -⟩
    exact hcon rfl
  rw [hmain]
  refine ⟨?_, rfl⟩
  apply isSubsetOfLanes_of_testBit
  intro j hj
  have hj31 : j ≤ pickArbitraryLaneIndex root.expiredLanes :=
    testBit_le_pickArbitraryLaneIndex _ j hlt hj
  have heqh : (getEqualOrHigherPriorityLanes root.expiredLanes).testBit j = true := by
    unfold getEqualOrHigherPriorityLanes getLowestPriorityLane
    rw [if_neg hne, Nat.one_shiftLeft, Nat.shiftLeft_eq, pow_one, ← pow_succ,
      Nat.testBit_two_pow_sub_one]
    exact decide_eq_true (Nat.lt_succ_of_le hj31)
  rw [applyEntanglements_testBit]
  left
  rw [Nat.testBit_and, hpend j hj, heqh]
  rfl

/-- Witness for C2 at a concrete root with lane 512 expired and pending. -/
theorem c2_witness :
    isSubsetOfLanes (getNextLanes c2WRoot NoLanes 0).1 c2WRoot.expiredLanes
    ∧ (getNextLanes c2WRoot NoLanes 0).2 = SyncLanePriority :=
  c2_getNextLanes_expired c2WRoot 0 (by decide) (by decide) (by decide)

/-! Claim C1. -/

/-- Claim C1 counterexample: updating lane `SyncBatchedLane = 0b10` on a root
where `SyncLane = 0b1` is suspended leaves `SyncLane` suspended. `SyncLane`
has equal-or-higher priority than the update lane, so the claim that all
equal-or-higher-priority lanes are cleared from `suspendedLanes` fails; the
code clears the equal-or-LOWER-priority ones. -/
theorem c1_counterexample :
    (markRootUpdated c1CexRoot SyncBatchedLane 100).suspendedLanes.testBit 0 = true := by
  decide

/-- Claim C1 (amended): `markRootUpdated(root, L, eventTime)` with a single
lane `L = 2 ^ k` adds `L` to `pendingLanes`, records `eventTime` at `L`'s
index in `eventTimes`, and clears the suspended and pinged status of all
lanes of equal-or-LOWER priority than `L` (bit positions at or above `k`),
while suspended and pinged bits of strictly higher priority (bit positions
below `k`) are preserved. -/
theorem c1_markRootUpdated (root : FiberRoot) (k j : Nat) (eventTime : Int) (hk : k < 31) :
    (markRootUpdated root (1 <<< k) eventTime).pendingLanes
      = root.pendingLanes ||| (1 <<< k)
    ∧ (markRootUpdated root (1 <<< k) eventTime).eventTimes k = eventTime
    ∧ (k ≤ j →
        (markRootUpdated root (1 <<< k) eventTime).suspendedLanes.testBit j = false
        ∧ (markRootUpdated root (1 <<< k) eventTime).pingedLanes.testBit j = false)
    ∧ (j < k →
        (markRootUpdated root (1 <<< k) eventTime).suspendedLanes.testBit j
          = root.suspendedLanes.testBit j
        ∧ (markRootUpdated root (1 <<< k) eventTime).pingedLanes.testBit j
          = root.pingedLanes.testBit j) := by
  have hnotlt : k ≤ j → ¬j < k := by omega
  refine ⟨rfl, ?_, ?_, ?_⟩
  · show (if k = laneToIndex (1 <<< k) then eventTime else root.eventTimes k) = eventTime
    rw [laneToIndex_shiftLeft k hk, if_pos rfl]
  · intro hkj
    constructor
    · show (root.suspendedLanes &&& (1 <<< k - 1)).testBit j = false
      rw [Nat.one_shiftLeft, Nat.testBit_and, Nat.testBit_two_pow_sub_one]
      simp [hnotlt hkj]
    · show (root.pingedLanes &&& (1 <<< k - 1)).testBit j = false
      rw [Nat.one_shiftLeft, Nat.testBit_and, Nat.testBit_two_pow_sub_one]
      simp [hnotlt hkj]
  · intro hjk
    constructor
    · show (root.suspendedLanes &&& (1 <<< k - 1)).testBit j = root.suspendedLanes.testBit j
      rw [Nat.one_shiftLeft, Nat.testBit_and, Nat.testBit_two_pow_sub_one]
      simp [hjk]
    · show (root.pingedLanes &&& (1 <<< k - 1)).testBit j = root.pingedLanes.testBit j
      rw [Nat.one_shiftLeft, Nat.testBit_and, Nat.testBit_two_pow_sub_one]
      simp [hjk]

/-- Witness for C1 at a concrete root with lanes 1 and 2 suspended/pinged. -/
theorem c1_witness :
    (markRootUpdated c1Root (1 <<< 1) 42).pendingLanes = c1Root.pendingLanes ||| (1 <<< 1)
    ∧ (markRootUpdated c1Root (1 <<< 1) 42).eventTimes 1 = 42
    ∧ ((markRootUpdated c1Root (1 <<< 1) 42).suspendedLanes.testBit 5 = false
        ∧ (markRootUpdated c1Root (1 <<< 1) 42).pingedLanes.testBit 5 = false) :=
  ⟨(c1_markRootUpdated c1Root 1 5 42 (by decide)).1,
   (c1_markRootUpdated c1Root 1 5 42 (by decide)).2.1,
   (c1_markRootUpdated c1Root 1 5 42 (by decide)).2.2.1 (by decide)⟩

/-! Claim C8. -/

/-- The starvation loop body leaves other indices alone. -/
theorem starvedBody_miss (sus pin : Nat) (t : Int) (i k : Nat) (acc : (Nat → Int) × Nat)
    (hik : i ≠ k) :
    ((starvedBody sus pin t i acc).1 k, (starvedBody sus pin t i acc).2.testBit k)
      = (acc.1 k, acc.2.testBit k) := by
  unfold starvedBody
  simp only
  split
  · split
    · simp only
      rw [if_neg (fun h => hik h.symm)]
    · rfl
  · split
    · simp [Nat.testBit_or, Nat.one_shiftLeft, Nat.testBit_two_pow, hik]
    · rfl

/-- The starvation loop body at its own index: assign a fresh expiration
time, or mark the lane expired, or leave it alone. -/
theorem starvedBody_hit (sus pin : Nat) (t : Int) (k : Nat) (acc : (Nat → Int) × Nat) :
    ((starvedBody sus pin t k acc).1 k, (starvedBody sus pin t k acc).2.testBit k)
      = (if acc.1 k = NoTimestamp then
          (if (1 <<< k) &&& sus = NoLanes ∨ (1 <<< k) &&& pin ≠ NoLanes
           then (computeExpirationTime (1 <<< k) t, acc.2.testBit k)
           else (acc.1 k, acc.2.testBit k))
         else if acc.1 k ≤ t then (acc.1 k, true)
         else (acc.1 k, acc.2.testBit k)) := by
  unfold starvedBody
  simp only
  split
  · split
    · simp
    · rfl
  · split
    · simp [Nat.testBit_or, Nat.one_shiftLeft, Nat.testBit_two_pow]
    · rfl

/-- Claim C8: `markStarvedLanesAsExpired(root, now)` gives each pending lane
with no recorded expiration time that is not suspended (or is pinged) an
expiration time by priority class — `now + 250` at input-continuous priority
or above, `now + 5000` at transition priority or above, never below that —
and a lane's bit is set in the resulting `expiredLanes` exactly when it
already was, or the lane is pending with a recorded expiration time that has
passed. -/
theorem c8_markStarvedLanesAsExpired (root : FiberRoot) (currentTime : Int) (k : Nat)
    (hk : k < 31) :
    (root.pendingLanes.testBit k = true → root.expirationTimes k = NoTimestamp →
      ((1 <<< k) &&& root.suspendedLanes = NoLanes ∨ (1 <<< k) &&& root.pingedLanes ≠ NoLanes) →
      (markStarvedLanesAsExpired root currentTime).expirationTimes k =
        (if InputContinuousLanePriority ≤ (getHighestPriorityLanes (1 <<< k)).2 then
          currentTime + 250
         else if TransitionPriority ≤ (getHighestPriorityLanes (1 <<< k)).2 then
          currentTime + 5000
         else NoTimestamp))
    ∧ ((markStarvedLanesAsExpired root currentTime).expiredLanes.testBit k = true ↔
        (root.expiredLanes.testBit k = true ∨
          (root.pendingLanes.testBit k = true ∧ root.expirationTimes k ≠ NoTimestamp ∧
            root.expirationTimes k ≤ currentTime))) := by
  have H := foldBits_proj root.pendingLanes
    (starvedBody root.suspendedLanes root.pingedLanes currentTime)
    (fun st : (Nat → Int) × Nat => (st.1 k, st.2.testBit k)) k
    (fun i acc hik => starvedBody_miss _ _ _ i k acc hik)
    (fun acc acc2 h => by
      have h1 : acc.1 k = acc2.1 k := congrArg Prod.fst h
      have h2 : acc.2.testBit k = acc2.2.testBit k := congrArg Prod.snd h
      show ((starvedBody _ _ _ k acc).1 k, (starvedBody _ _ _ k acc).2.testBit k) =
        ((starvedBody _ _ _ k acc2).1 k, (starvedBody _ _ _ k acc2).2.testBit k)
      rw [starvedBody_hit, starvedBody_hit, h1, h2])
    (root.expirationTimes, root.expiredLanes)
  simp only at H
  rw [starvedBody_hit] at H
  have HL : ((markStarvedLanesAsExpired root currentTime).expirationTimes k,
      (markStarvedLanesAsExpired root currentTime).expiredLanes.testBit k) =
      (if k < 31 ∧ root.pendingLanes.testBit k = true then
        (if root.expirationTimes k = NoTimestamp then
          (if (1 <<< k) &&& root.suspendedLanes = NoLanes ∨
              (1 <<< k) &&& root.pingedLanes ≠ NoLanes
           then (computeExpirationTime (1 <<< k) currentTime, root.expiredLanes.testBit k)
           else (root.expirationTimes k, root.expiredLanes.testBit k))
         else if root.expirationTimes k ≤ currentTime then
          (root.expirationTimes k, true)
         else (root.expirationTimes k, root.expiredLanes.testBit k))
      else (root.expirationTimes k, root.expiredLanes.testBit k)) := H
  constructor
  · intro hp hnt hcond
    rw [if_pos ⟨hk, hp⟩, if_pos hnt, if_pos hcond] at HL
    exact congrArg Prod.fst HL
  · by_cases hp : root.pendingLanes.testBit k = true
    · rw [if_pos ⟨hk, hp⟩] at HL
      by_cases hnt : root.expirationTimes k = NoTimestamp
      · rw [if_pos hnt] at HL
        have hsnd : (markStarvedLanesAsExpired root currentTime).expiredLanes.testBit k
            = root.expiredLanes.testBit k := by
          rcases em ((1 <<< k) &&& root.suspendedLanes = NoLanes ∨
              (1 <<< k) &&& root.pingedLanes ≠ NoLanes) with hc | hc
          · rw [if_pos hc] at HL
            exact congrArg Prod.snd HL
          · rw [if_neg hc] at HL
            exact congrArg Prod.snd HL
        rw [hsnd, hnt]
        simp
      · rw [if_neg hnt] at HL
        by_cases hle : root.expirationTimes k ≤ currentTime
        · rw [if_pos hle] at HL
          have hsnd := congrArg Prod.snd HL
          simp only at hsnd
          rw [hsnd]
          constructor
          · intro
            exact Or.inr ⟨hp, hnt, hle⟩
          · intro
            rfl
        · rw [if_neg hle] at HL
          have hsnd := congrArg Prod.snd HL
          simp only at hsnd
          rw [hsnd]
          simp [hle]
    · rw [if_neg (fun hcon => hp hcon.2)] at HL
      have hsnd := congrArg Prod.snd HL
      simp only at hsnd
      rw [hsnd]
      simp [hp]

/-- Witness for C8 at a concrete root with the default lane 512 pending and
no recorded expiration time. -/
theorem c8_witness :
    (markStarvedLanesAsExpired c8Root 100).expirationTimes 9 =
      (if InputContinuousLanePriority ≤ (getHighestPriorityLanes (1 <<< 9)).2 then
        (100 : Int) + 250
       else if TransitionPriority ≤ (getHighestPriorityLanes (1 <<< 9)).2 then
        (100 : Int) + 5000
       else NoTimestamp) :=
  (c8_markStarvedLanesAsExpired c8Root 100 9 (by decide)).1 (by decide) rfl
    (Or.inl (by decide))

/-! Claim C9. -/

/-- The finish loop body leaves other indices alone. -/
theorem finishedBody_miss (i k : Nat) (tbls : (Nat → Nat) × (Nat → Int) × (Nat → Int))
    (hik : i ≠ k) :
    ((finishedBody i tbls).1 k, (finishedBody i tbls).2.1 k, (finishedBody i tbls).2.2 k)
      = (tbls.1 k, tbls.2.1 k, tbls.2.2 k) := by
  unfold finishedBody
  simp [Ne.symm hik]

/-- Claim C9: after `markRootFinished(root, remainingLanes)` the pending set
equals `remainingLanes` and the suspended, pinged, expired, entangled and
mutable-read registers are all subsets of it, while every lane no longer
pending has its `entanglements`, `eventTimes` and `expirationTimes` slots
reset to the unused values. -/
theorem c9_markRootFinished (root : FiberRoot) (remainingLanes k : Nat) (hk : k < 31) :
    (markRootFinished root remainingLanes).pendingLanes = remainingLanes
    ∧ isSubsetOfLanes (markRootFinished root remainingLanes).pendingLanes
        (markRootFinished root remainingLanes).suspendedLanes
    ∧ isSubsetOfLanes (markRootFinished root remainingLanes).pendingLanes
        (markRootFinished root remainingLanes).pingedLanes
    ∧ isSubsetOfLanes (markRootFinished root remainingLanes).pendingLanes
        (markRootFinished root remainingLanes).expiredLanes
    ∧ isSubsetOfLanes (markRootFinished root remainingLanes).pendingLanes
        (markRootFinished root remainingLanes).entangledLanes
    ∧ isSubsetOfLanes (markRootFinished root remainingLanes).pendingLanes
        (markRootFinished root remainingLanes).mutableReadLanes
    ∧ (root.pendingLanes.testBit k = true → remainingLanes.testBit k = false →
        (markRootFinished root remainingLanes).entanglements k = NoLanes
        ∧ (markRootFinished root remainingLanes).eventTimes k = NoTimestamp
        ∧ (markRootFinished root remainingLanes).expirationTimes k = NoTimestamp) := by
  refine ⟨rfl, ?_, ?_, land_subset_self _ _, land_subset_self _ _,
    land_subset_self _ _, ?_⟩
  · show remainingLanes &&& NoLanes = NoLanes
    simp
  · show remainingLanes &&& NoLanes = NoLanes
    simp
  intro hp hr
  have hbit : (root.pendingLanes &&& lnot31 remainingLanes).testBit k = true := by
    rw [Nat.testBit_and, hp]
    unfold lnot31
    rw [Nat.testBit_xor, hr, Nat.testBit_two_pow_sub_one]
    simp [hk]
  have H := foldBits_proj (root.pendingLanes &&& lnot31 remainingLanes) finishedBody
    (fun tbls : (Nat → Nat) × (Nat → Int) × (Nat → Int) =>
      (tbls.1 k, tbls.2.1 k, tbls.2.2 k)) k
    (fun i acc hik => finishedBody_miss i k acc hik)
    (fun acc acc2 _ => by simp [finishedBody])
    (root.entanglements, root.eventTimes, root.expirationTimes)
  simp only at H
  rw [if_pos ⟨hk, hbit⟩] at H
  simp only [finishedBody, if_pos rfl] at H
  have h1 := congrArg (fun p : Nat × Int × Int => p.1) H
  have h2 := congrArg (fun p : Nat × Int × Int => p.2.1) H
  have h3 := congrArg (fun p : Nat × Int × Int => p.2.2) H
  simp only at h1 h2 h3
  exact ⟨h1, h2, h3⟩

/-- Witness for C9 at a concrete root with lanes 1 and 2 pending and lane 2
no longer pending afterwards. -/
theorem c9_witness :
    (markRootFinished c9Root 1).pendingLanes = 1
    ∧ isSubsetOfLanes (markRootFinished c9Root 1).pendingLanes
        (markRootFinished c9Root 1).expiredLanes
    ∧ ((markRootFinished c9Root 1).entanglements 1 = NoLanes
        ∧ (markRootFinished c9Root 1).eventTimes 1 = NoTimestamp
        ∧ (markRootFinished c9Root 1).expirationTimes 1 = NoTimestamp) :=
  ⟨(c9_markRootFinished c9Root 1 1 (by decide)).1,
   (c9_markRootFinished c9Root 1 1 (by decide)).2.2.2.1,
   (c9_markRootFinished c9Root 1 1 (by decide)).2.2.2.2.2.2 (by decide) (by decide)⟩

/-! Claim C6. -/

/-- Claim C6: `runWithPriority` never fails on account of the priority value:
an unrecognized level is silently replaced by `NormalPriority`; the handler
runs with the ambient priority set to the (possibly defaulted) level; and the
previous ambient priority is what remains afterwards whether the handler
succeeds or throws. -/
theorem c6_runWithPriority {E A : Type} (cur p : Nat) (f : Nat → Except E A) :
    (unstable_runWithPriority cur p f).1 = cur
    ∧ ((p = ImmediatePriority ∨ p = UserBlockingPriority ∨ p = NormalPriority ∨
        p = LowPriority ∨ p = IdlePriority) →
        (unstable_runWithPriority cur p f).2 = f p)
    ∧ (¬(p = ImmediatePriority ∨ p = UserBlockingPriority ∨ p = NormalPriority ∨
        p = LowPriority ∨ p = IdlePriority) →
        (unstable_runWithPriority cur p f).2 = f NormalPriority) := by
  refine ⟨rfl, ?_, ?_⟩
  · intro hvalid
    show f (if p = ImmediatePriority ∨ p = UserBlockingPriority ∨ p = NormalPriority ∨
        p = LowPriority ∨ p = IdlePriority then p else NormalPriority) = f p
    rw [if_pos hvalid]
  · intro hinvalid
    show f (if p = ImmediatePriority ∨ p = UserBlockingPriority ∨ p = NormalPriority ∨
        p = LowPriority ∨ p = IdlePriority then p else NormalPriority) = f NormalPriority
    rw [if_neg hinvalid]

/-- Witness for C6: an unrecognized priority 42 with a throwing handler. -/
theorem c6_witness :
    (unstable_runWithPriority 7 42 c6Handler).1 = 7
    ∧ (unstable_runWithPriority 7 42 c6Handler).2 = c6Handler NormalPriority :=
  ⟨(c6_runWithPriority 7 42 c6Handler).1,
   (c6_runWithPriority 7 42 c6Handler).2.2 (by decide)⟩

/-! Claim C4. -/

/-- A task scheduled with no delay starts now, expires at `now` plus the
priority timeout, and is pushed onto the task queue keyed by its expiration
time. -/
theorem scheduleCallback_noDelay (s : SchedulerState) (t : Int) (p : Nat) (cb : CB) :
    unstable_scheduleCallback s t p cb none =
      ({ s with
          taskQueue := push s.taskQueue
            { id := s.taskIdCounter, callback := some cb, priorityLevel := p,
              startTime := t, expirationTime := t + scheduleTimeout p,
              sortIndex := t + scheduleTimeout p },
          taskIdCounter := s.taskIdCounter + 1 },
        { id := s.taskIdCounter, callback := some cb, priorityLevel := p,
          startTime := t, expirationTime := t + scheduleTimeout p,
          sortIndex := t + scheduleTimeout p }) := by
  simp only [unstable_scheduleCallback]
  rw [if_neg (lt_irrefl t)]

/-- Pushing onto the empty heap yields the singleton queue. -/
theorem push_nil (t : Task) : push [] t = [t] := rfl

/-- Pushing onto the sorted-list heap walks past a head that orders first. -/
theorem push_cons_after (h : Task) (rest : List Task) (t : Task)
    (hb : taskBefore t h = false) : push (h :: rest) t = h :: push rest t := by
  simp [push, hb]

/-- Claim C4: the per-priority timeout table is Immediate `-1`, UserBlocking
`250`, Normal `5000`, Low `10000`, Idle `1073741823`, default `5000`;
`expirationTime = startTime + timeout`; an Immediate task scheduled with no
delay already has `expirationTime ≤ now`, and it is ordered before a
Normal-priority task scheduled at the same instant (both by the heap
comparator and by position in the ready queue). -/
theorem c4_scheduleCallback (s : SchedulerState) (t : Int) (p : Nat) (cbI cbN : CB) :
    scheduleTimeout ImmediatePriority = -1
    ∧ scheduleTimeout UserBlockingPriority = 250
    ∧ scheduleTimeout NormalPriority = 5000
    ∧ scheduleTimeout LowPriority = 10000
    ∧ scheduleTimeout IdlePriority = 1073741823
    ∧ (p ≠ ImmediatePriority → p ≠ UserBlockingPriority → p ≠ NormalPriority →
        p ≠ LowPriority → p ≠ IdlePriority → scheduleTimeout p = 5000)
    ∧ (unstable_scheduleCallback s t p cbI none).2.startTime = t
    ∧ (unstable_scheduleCallback s t p cbI none).2.expirationTime
        = (unstable_scheduleCallback s t p cbI none).2.startTime + scheduleTimeout p
    ∧ (unstable_scheduleCallback s t ImmediatePriority cbI none).2.expirationTime ≤ t
    ∧ taskBefore (unstable_scheduleCallback s t ImmediatePriority cbI none).2
        (unstable_scheduleCallback
          (unstable_scheduleCallback s t ImmediatePriority cbI none).1 t
          NormalPriority cbN none).2 = true
    ∧ (s.taskQueue = [] →
        (unstable_scheduleCallback
          (unstable_scheduleCallback s t ImmediatePriority cbI none).1 t
          NormalPriority cbN none).1.taskQueue =
          [(unstable_scheduleCallback s t ImmediatePriority cbI none).2,
           (unstable_scheduleCallback
              (unstable_scheduleCallback s t ImmediatePriority cbI none).1 t
              NormalPriority cbN none).2]) := by
  refine ⟨rfl, rfl, rfl, rfl, rfl, ?_, ?_, ?_, ?_, ?_, ?_⟩
  · intro h1 h2 h3 h4 h5
    simp [scheduleTimeout, h1, h2, h3, h4, h5]
  · rw [scheduleCallback_noDelay]
  · rw [scheduleCallback_noDelay]
  · rw [scheduleCallback_noDelay]
    show t + (-1 : Int) ≤ t
    omega
  · rw [scheduleCallback_noDelay, scheduleCallback_noDelay]
    simp only [taskBefore]
    apply decide_eq_true
    left
    show t + (-1 : Int) < t + (5000 : Int)
    omega
  · intro hq
    rw [scheduleCallback_noDelay, scheduleCallback_noDelay]
    simp only [hq]
    rw [push_nil, push_cons_after, push_nil]
    simp only [taskBefore]
    apply decide_eq_false
    rintro (hcon | ⟨hcon, -⟩)
    · revert hcon
      show ¬(t + (5000 : Int) < t + (-1 : Int))
      omega
    · revert hcon
      show ¬(t + (5000 : Int) = t + (-1 : Int))
      omega

/-- Witness for C4 at a concrete empty scheduler state and time 0. -/
theorem c4_witness :
    scheduleTimeout 9 = 5000
    ∧ (unstable_scheduleCallback c4State 0 ImmediatePriority noopCB none).2.expirationTime ≤ 0
    ∧ (unstable_scheduleCallback
        (unstable_scheduleCallback c4State 0 ImmediatePriority noopCB none).1 0
        NormalPriority noopCB none).1.taskQueue =
        [(unstable_scheduleCallback c4State 0 ImmediatePriority noopCB none).2,
         (unstable_scheduleCallback
            (unstable_scheduleCallback c4State 0 ImmediatePriority noopCB none).1 0
            NormalPriority noopCB none).2] :=
  ⟨(c4_scheduleCallback c4State 0 9 noopCB noopCB).2.2.2.2.2.1
      (by decide) (by decide) (by decide) (by decide) (by decide),
   (c4_scheduleCallback c4State 0 9 noopCB noopCB).2.2.2.2.2.2.2.2.1,
   (c4_scheduleCallback c4State 0 9 noopCB noopCB).2.2.2.2.2.2.2.2.2.2 rfl⟩

/-! Claim C5. -/

/-- Promoting timers is a no-op when the timer queue is empty. -/
theorem advanceTimers_nilTimer (t : Int) (tq : List Task) (cnt pri : Nat) :
    advanceTimers t ⟨tq, [], cnt, pri⟩ = ⟨tq, [], cnt, pri⟩ := rfl

/-- Claim C5 counterexample: an already-expired task whose callback returns a
continuation. The continuation is stored back and re-invoked within the same
`workLoop` call (the task has expired, so the yield check does not break);
it finishes, the task is popped, and the work loop returns `false` — refuting
the claim that the loop always returns `true` after a callback returns a
function. -/
theorem c5_counterexample :
    (c5CexBody true).2.isSome = true
    ∧ (workLoop 5 true 5 0 c5CexState).invoked = [7, 7]
    ∧ (workLoop 5 true 5 0 c5CexState).hasMoreWork = false := by
  refine ⟨rfl, ?_, ?_⟩ <;> decide

/-- Claim C5 (amended): when the head task's callback is invoked and returns
a continuation, the continuation is stored back as the task's callback and
the task is not popped; if the loop thereafter breaks at the head check — the
task not yet expired and the host yielding, rather than re-invoking the
stored continuation — the task is still the head of the ready queue and
`workLoop` returns `true`. Independently, if the head task has not expired
and the host says to yield, the loop breaks without invoking it and returns
`true`. (An expired task's stored continuation is instead re-invoked within
the same call, which can exhaust the queue and return `false`.) -/
theorem c5_workLoop (t : Task) (rest : List Task) (cnt pri fuel : Nat) (htr : Bool)
    (deadline currentTime dur : Int) (f : Bool → Int × Option CB) (c : CB)
    (t2 : Task) (rest2 tmq2 : List Task) (cnt2 pri2 fuel2 : Nat) (htr2 : Bool)
    (deadline2 currentTime2 : Int)
    (h3 : t.callback = some (CB.mk f))
    (h4 : ¬(t.expirationTime > currentTime ∧
          (htr = false ∨ shouldYieldToHost deadline currentTime = true)))
    (h5 : f (decide (t.expirationTime ≤ currentTime)) = (dur, some c))
    (h6 : t.expirationTime > currentTime + dur)
    (h7 : htr = false ∨ shouldYieldToHost deadline (currentTime + dur) = true) :
    workLoop (fuel + 2) htr deadline currentTime ⟨t :: rest, [], cnt, pri⟩ =
      ⟨⟨{ t with callback := some c } :: rest, [], cnt, t.priorityLevel⟩,
        currentTime + dur, [t.id], true⟩
    ∧ (t2.expirationTime > currentTime2 →
        (htr2 = false ∨ shouldYieldToHost deadline2 currentTime2 = true) →
        workLoopGo (fuel2 + 1) htr2 deadline2 currentTime2 ⟨t2 :: rest2, tmq2, cnt2, pri2⟩ =
          ⟨⟨t2 :: rest2, tmq2, cnt2, pri2⟩, currentTime2, [], true⟩) := by
  constructor
  · show workLoopGo (fuel + 2) htr deadline currentTime
      (advanceTimers currentTime ⟨t :: rest, [], cnt, pri⟩) = _
    rw [advanceTimers_nilTimer]
    show workLoopGo (fuel + 1 + 1) htr deadline currentTime ⟨t :: rest, [], cnt, pri⟩ = _
    simp only [workLoopGo]
    rw [if_neg h4]
    simp only [h3, h5]
    rw [advanceTimers_nilTimer]
    simp only [workLoopGo]
    rw [if_pos]
    · exact ⟨h6, h7⟩
  · intro hexp hyield
    simp only [workLoopGo]
    rw [if_pos ⟨hexp, hyield⟩]

/-- Witness for C5: the spec's yield-law scenario — a Normal task at time 0
with a 5 ms budget whose body consumes 10 ms and returns a continuation; one
slice leaves it at the head with the continuation stored and reports more
work; and a fresh unexpired head with the budget gone breaks untouched. -/
theorem c5_witness :
    workLoop 2 true 5 0 c5State =
      ⟨⟨[{ c5Task with callback := some c5Cont }], [], 2, c5Task.priorityLevel⟩,
        10, [c5Task.id], true⟩
    ∧ workLoopGo 1 true 5 20 c5State = ⟨c5State, 20, [], true⟩ :=
  ⟨(c5_workLoop c5Task [] 2 NormalPriority 0 true 5 0 10 c5Body c5Cont
      c5Task [] [] 2 NormalPriority 0 true 5 20
      rfl (by decide) rfl (by decide) (Or.inr rfl)).1,
   (c5_workLoop c5Task [] 2 NormalPriority 0 true 5 0 10 c5Body c5Cont
      c5Task [] [] 2 NormalPriority 0 true 5 20
      rfl (by decide) rfl (by decide) (Or.inr rfl)).2 (by decide) (Or.inr rfl)⟩

/-! Claim C7. -/

/-- Membership in the sorted-insert heap push. -/
theorem mem_push {q : List Task} {t x : Task} (hx : x ∈ push q t) : x ∈ q ∨ x = t := by
  induction q with
  | nil =>
    rw [push_nil] at hx
    rcases List.mem_cons.mp hx with h | h
    · exact Or.inr h
    · exact absurd h (List.not_mem_nil x)
  | cons h rest ih =>
    unfold push at hx
    split at hx
    · rcases List.mem_cons.mp hx with h2 | h2
      · exact Or.inr h2
      · exact Or.inl h2
    · rcases List.mem_cons.mp hx with h2 | h2
      · exact Or.inl (h2 ▸ List.mem_cons_self _ _)
      · rcases ih h2 with h3 | h3
        · exact Or.inl (List.mem_cons_of_mem _ h3)
        · exact Or.inr h3

/-- Promotion of due timers preserves cleanliness of both queues: a
cancelled task is only ever dropped or moved, never brought back to life. -/
theorem advanceTimersGo_clean (i : Nat) (now : Int) :
    ∀ (timerQ taskQ : List Task), cleanFor i timerQ → cleanFor i taskQ →
      cleanFor i (advanceTimersGo now timerQ taskQ).1
      ∧ cleanFor i (advanceTimersGo now timerQ taskQ).2 := by
  intro timerQ
  induction timerQ with
  | nil =>
    intro taskQ h1 h2
    exact ⟨h1, h2⟩
  | cons timer rest ih =>
    intro taskQ h1 h2
    have h1rest : cleanFor i rest := fun x hx => h1 x (List.mem_cons_of_mem _ hx)
    unfold advanceTimersGo
    split
    · exact ih taskQ h1rest h2
    · split
      · apply ih
        · exact h1rest
        · intro x hx hid
          rcases mem_push hx with hxq | hxe
          · exact h2 x hxq hid
          · subst hxe
            exact h1 timer (List.mem_cons_self _ _) hid
      · exact ⟨h1, h2⟩

/-- The work loop never invokes a task id whose queue entries are all
cancelled: cancelled heads are popped and dropped, live heads have a
different id, and every step preserves cleanliness. -/
theorem workLoopGo_clean (i : Nat) :
    ∀ (fuel : Nat) (htr : Bool) (deadline currentTime : Int) (s : SchedulerState),
      cleanFor i s.taskQueue → cleanFor i s.timerQueue →
      i ∉ (workLoopGo fuel htr deadline currentTime s).invoked := by
  intro fuel
  induction fuel with
  | zero =>
    intro htr dl now s h1 h2
    simp [workLoopGo]
  | succ fuel ih =>
    intro htr dl now s h1 h2
    rcases hq : s.taskQueue with _ | ⟨t, rest⟩
    · simp [workLoopGo, hq]
    · have hrest : cleanFor i rest := by
        intro x hx
        exact h1 x (hq ▸ List.mem_cons_of_mem _ hx)
      simp only [workLoopGo, hq]
      split
      · simp
      · rcases hcb : t.callback with _ | cb
        · simp only
          exact ih htr dl now { s with taskQueue := rest } hrest h2
        · rcases cb with ⟨f⟩
          have htid : t.id ≠ i := by
            intro hcon
            have hnone := h1 t (hq ▸ List.mem_cons_self _ _) hcon
            rw [hcb] at hnone
            cases hnone
          simp only
          rcases hr : f (decide (t.expirationTime ≤ now)) with ⟨dur, cont⟩
          simp only [hr]
          have hclean1 : cleanFor i
              (match cont with
                | some continuation => { t with callback := some continuation } :: rest
                | none => rest) := by
            rcases cont with _ | c
            · exact hrest
            · intro x hx hid
              rcases List.mem_cons.mp hx with hxe | hx2
              · subst hxe
                exact absurd hid htid
              · exact hrest x hx2 hid
          rcases cont with _ | c
          · simp only
            intro hmem
            rcases List.mem_cons.mp hmem with heq | hmem2
            · exact htid heq.symm
            · have hadv := advanceTimersGo_clean i (now + dur) s.timerQueue rest h2 hclean1
              exact ih htr dl (now + dur) _ hadv.2 hadv.1 hmem2
          · simp only
            intro hmem
            rcases List.mem_cons.mp hmem with heq | hmem2
            · exact htid heq.symm
            · have hadv := advanceTimersGo_clean i (now + dur) s.timerQueue
                ({ t with callback := some c } :: rest) h2 hclean1
              exact ih htr dl (now + dur) _ hadv.2 hadv.1 hmem2

/-- Cancelling by id leaves every entry with that id with a null callback. -/
theorem cancelTaskById_clean (q : List Task) (i : Nat) : cleanFor i (cancelTaskById q i) := by
  intro x hx hid
  rcases List.mem_map.mp hx with ⟨y, hy, hmap⟩
  by_cases h : y.id = i
  · rw [← hmap]
    simp [h, unstable_cancelCallback]
  · rw [← hmap] at hid
    rw [if_neg h] at hid
    exact absurd hid h

/-- Claim C7: `cancel(task)` nulls the callback without removing the task
from its heap (the queue keeps its length, and repeated cancellation is
idempotent), and once every queue entry with the task's id is cancelled the
work loop — including its delayed-queue promotion step — never invokes it. -/
theorem c7_cancelCallback (task : Task) (q : List Task) (s : SchedulerState)
    (i fuel : Nat) (htr : Bool) (deadline initialTime : Int) :
    (unstable_cancelCallback task).callback = none
    ∧ unstable_cancelCallback (unstable_cancelCallback task) = unstable_cancelCallback task
    ∧ (cancelTaskById q i).length = q.length
    ∧ i ∉ (workLoop fuel htr deadline initialTime
        { s with taskQueue := cancelTaskById s.taskQueue i,
                 timerQueue := cancelTaskById s.timerQueue i }).invoked := by
  refine ⟨rfl, rfl, by simp [cancelTaskById], ?_⟩
  have hc1 : cleanFor i (cancelTaskById s.taskQueue i) := cancelTaskById_clean _ _
  have hc2 : cleanFor i (cancelTaskById s.timerQueue i) := cancelTaskById_clean _ _
  have hadv := advanceTimersGo_clean i initialTime (cancelTaskById s.timerQueue i)
    (cancelTaskById s.taskQueue i) hc2 hc1
  exact workLoopGo_clean i fuel htr deadline initialTime _ hadv.2 hadv.1

/-- Witness for C7: cancelling id 3 in a state holding it in both queues. -/
theorem c7_witness :
    3 ∉ (workLoop 4 true 5 0
      { c7State with taskQueue := cancelTaskById c7State.taskQueue 3,
                     timerQueue := cancelTaskById c7State.timerQueue 3 }).invoked
    ∧ (cancelTaskById c7State.taskQueue 3).length = c7State.taskQueue.length :=
  ⟨(c7_cancelCallback c7Task c7State.taskQueue c7State 3 4 true 5 0).2.2.2,
   (c7_cancelCallback c7Task c7State.taskQueue c7State 3 4 true 5 0).2.2.1⟩

end ReactDebug
